import Mathlib

/-!
# Verification of GeographicLib's `PolygonArea`

A shallow embedding of `include/GeographicLib/PolygonArea.hpp`
(class `PolygonAreaT`), together with models of the pieces the header
relies on but whose bodies live elsewhere in the library
(`Math::AngNormalize`, `Math::AngDiff`, `Accumulator`, and the member
function bodies of `AddPoint`, `AddEdge`, `Compute`, `TestPoint`,
`TestEdge`).  Real numbers are modelled by `ℚ`; the NaN sentinel used
for the cursor fields is modelled by `Option ℚ` with `none` standing
for NaN.  The geodesic engine is an external collaborator and is
modelled as a record of pure functions.
-/

namespace GeographicLib

/-- Modelled from the spec: `Math::AngNormalize` (its body is not under
`src/`); it reduces an angle to the interval [-180, 180). -/
def AngNormalize (x : ℚ) : ℚ := x - 360 * (⌊(x + 180) / 360⌋ : ℤ)

/-- Reduce an angle difference into the interval (-180, 180]. -/
def wrap (d : ℚ) : ℚ := d - 360 * (⌈d / 360 - 1/2⌉ : ℤ)

/-- Modelled from the spec: `Math::AngDiff` (its body is not under
`src/`); the signed shortest angular difference `y - x`, reduced to the
interval (-180, 180]. -/
def AngDiff (x y : ℚ) : ℚ := wrap (y - x)

/-- From the source (`PolygonArea.hpp`, `PolygonAreaT::transit`):
return 1 or -1 if crossing the prime meridian in the east or west
direction, otherwise return zero. -/
def transit (lon1 lon2 : ℚ) : ℤ :=
  let lon1 := AngNormalize lon1
  let lon2 := AngNormalize lon2
  let lon12 := AngDiff lon1 lon2
  if lon1 < 0 ∧ 0 ≤ lon2 ∧ 0 < lon12 then 1
  else if lon2 < 0 ∧ 0 ≤ lon1 ∧ lon12 < 0 then -1
  else 0

/-- Follows the spec's words (claim C2, spec §4.2): normalize both
longitudes to [-180, 180), compute the signed shortest angular
difference `lon12 = AngDiff(lon1, lon2)` in (-180, 180], then return +1
if `lon1 < 0 ≤ lon2` and `lon12 > 0`, -1 if `lon2 < 0 ≤ lon1` and
`lon12 < 0`, else 0. -/
def transitSpec (lon1 lon2 : ℚ) : ℤ :=
  let n1 := AngNormalize lon1
  let n2 := AngNormalize lon2
  let lon12 := AngDiff lon1 lon2
  if n1 < 0 ∧ 0 ≤ n2 ∧ 0 < lon12 then 1
  else if n2 < 0 ∧ 0 ≤ n1 ∧ lon12 < 0 then -1
  else 0

/-- Modelled from the spec: the compensated accumulator
(`Accumulator.hpp` is not under `src/`): a running sum held as a major
term `s` plus a compensation term `t`. -/
structure Accumulator where
  s : ℚ
  t : ℚ
deriving DecidableEq

/-- Assigning a plain scalar: major term `y`, zero compensation. -/
def Accumulator.ofScalar (y : ℚ) : Accumulator := ⟨y, 0⟩

/-- Modelled from the spec: the two-sum primitive, returning the sum of
`u` and `v` together with the rounding error of the addition (which is
zero in the exact arithmetic of `ℚ`, but the operation sequence of the
code is kept). -/
def sum2 (u v : ℚ) : ℚ × ℚ :=
  let s := u + v
  let up := s - v
  let vpp := s - up
  (s, -((up - u) + (vpp - v)))

/-- Modelled from the spec: `Accumulator::operator+=`: accumulate `y`
starting at the least significant end, carrying the compensation term
forward. -/
def Accumulator.add (a : Accumulator) (y : ℚ) : Accumulator :=
  let p := sum2 y a.t
  let q := sum2 p.1 a.s
  if q.1 = 0 then ⟨p.2, q.2⟩ else ⟨q.1, q.2 + p.2⟩

/-- Modelled from the spec: `Accumulator::operator()`: the best
approximation of the total, the major term with the compensation term
folded in. -/
def Accumulator.value (a : Accumulator) : ℚ := a.s + a.t

/-- The external geodesic engine (spec §6), a record of pure
functions.  `inverse` returns the geodesic distance and the signed
area differential between two points; `direct` returns the destination
latitude, longitude and the area differential for a step of a given
azimuth and distance. -/
structure GeodEngine where
  area0 : ℚ
  majorRadius : ℚ
  flattening : ℚ
  inverse : ℚ → ℚ → ℚ → ℚ → ℚ × ℚ
  direct : ℚ → ℚ → ℚ → ℚ → ℚ × ℚ × ℚ

/-- The state of a `PolygonAreaT` instance (`PolygonArea.hpp`, the
private data members).  The cursor fields `lat0 lon0 lat1 lon1` use
`none` to model the NaN sentinel of the code. -/
structure PolygonArea where
  engine : GeodEngine
  area0 : ℚ
  polyline : Bool
  num : ℕ
  crossings : ℤ
  areasum : Accumulator
  perimetersum : Accumulator
  lat0 : Option ℚ
  lon0 : Option ℚ
  lat1 : Option ℚ
  lon1 : Option ℚ

/-- From the source (`PolygonArea.hpp`, `PolygonAreaT::Clear`): reset
the vertex count and crossing count to zero, both accumulators to zero
and the cursor fields to NaN.  It is a total function: no error is
possible. -/
def Clear (p : PolygonArea) : PolygonArea :=
  { p with
    num := 0
    crossings := 0
    areasum := Accumulator.ofScalar 0
    perimetersum := Accumulator.ofScalar 0
    lat0 := none, lon0 := none, lat1 := none, lon1 := none }

/-- From the source (`PolygonArea.hpp`, the constructor): bind an
engine and the mode, capture the full ellipsoid area, and start in the
cleared state. -/
def mkPolygonArea (g : GeodEngine) (polyline : Bool) : PolygonArea :=
  Clear
    { engine := g
      area0 := g.area0
      polyline := polyline
      num := 0
      crossings := 0
      areasum := Accumulator.ofScalar 0
      perimetersum := Accumulator.ofScalar 0
      lat0 := none, lon0 := none, lat1 := none, lon1 := none }

/-- Modelled from the spec: `PolygonAreaT::AddPoint` (its body is not
under `src/`): normalize the longitude; a first point becomes both the
first and the current vertex; a later point contributes a geodesic
inverse step from the current vertex (distance into the perimeter sum,
and, in polygon mode, area differential into the area sum and a transit
test into the crossing count) and becomes the current vertex. -/
def AddPoint (p : PolygonArea) (lat lon : ℚ) : PolygonArea :=
  let lonn := AngNormalize lon
  if p.num = 0 then
    { p with
      num := 1
      lat0 := some lat, lon0 := some lonn
      lat1 := some lat, lon1 := some lonn }
  else
    let r := p.engine.inverse (p.lat1.getD 0) (p.lon1.getD 0) lat lonn
    { p with
      num := p.num + 1
      perimetersum := p.perimetersum.add r.1
      areasum := if p.polyline then p.areasum else p.areasum.add r.2
      crossings :=
        if p.polyline then p.crossings
        else p.crossings + transit (p.lon1.getD 0) lonn
      lat1 := some lat, lon1 := some lonn }

/-- Modelled from the spec: `PolygonAreaT::AddEdge` (its body is not
under `src/`): do nothing if no points have been added yet; otherwise
step from the current vertex by the given azimuth and distance via the
engine's direct solver and accumulate exactly as `AddPoint` does. -/
def AddEdge (p : PolygonArea) (azi s : ℚ) : PolygonArea :=
  if p.num = 0 then p
  else
    let r := p.engine.direct (p.lat1.getD 0) (p.lon1.getD 0) azi s
    { p with
      num := p.num + 1
      perimetersum := p.perimetersum.add s
      areasum := if p.polyline then p.areasum else p.areasum.add r.2.2
      crossings :=
        if p.polyline then p.crossings
        else p.crossings + transit (p.lon1.getD 0) r.2.1
      lat1 := some r.1, lon1 := some r.2.1 }

/-- Reduce a value into the interval (-a0/2, a0/2] (for `a0 > 0`):
the reduction modulo the full ellipsoid area used when finalizing the
signed area. -/
def reduceSigned (a0 s : ℚ) : ℚ := s - a0 * (⌈s / a0 - 1/2⌉ : ℤ)

/-- Modelled from the spec: an odd total crossing count shifts the raw
area sum by half the full ellipsoid area before the modular
reduction. -/
def adjustCrossings (a0 s : ℚ) (crossings : ℤ) : ℚ :=
  if crossings % 2 ≠ 0 then s + (if s < 0 then a0 / 2 else -(a0 / 2)) else s

/-- Modelled from the spec: the signed area of the closed polygon:
crossing adjustment, reduction modulo the full area, then the sign flip
requested by `reverse`. -/
def signedAreaOf (a0 s : ℚ) (crossings : ℤ) (reverse : Bool) : ℚ :=
  let r := reduceSigned a0 (adjustCrossings a0 s crossings)
  if reverse then -r else r

/-- Modelled from the spec: the final area rule: if `sign` report the
signed area; otherwise report a non-negative area, replacing a negative
signed result by the complement `a0 - |signed|`. -/
def finishArea (a0 s : ℚ) (crossings : ℤ) (reverse sign : Bool) : ℚ :=
  let sa := signedAreaOf a0 s crossings reverse
  if sign then sa else if sa < 0 then a0 - |sa| else sa

/-- The closing edge of the polygon: the engine's inverse solution from
the current vertex back to the first vertex. -/
def closingEdge (p : PolygonArea) : ℚ × ℚ :=
  p.engine.inverse (p.lat1.getD 0) (p.lon1.getD 0) (p.lat0.getD 0) (p.lon0.getD 0)

/-- The perimeter of the closed polygon: the perimeter accumulator with
the closing edge distance folded in. -/
def closedPerimeter (p : PolygonArea) : ℚ :=
  (p.perimetersum.add (closingEdge p).1).value

/-- The raw area sum of the closed polygon: the area accumulator with
the closing edge area differential folded in. -/
def closedAreaSum (p : PolygonArea) : ℚ :=
  (p.areasum.add (closingEdge p).2).value

/-- The total crossing count of the closed polygon, including the
speculative transit test of the closing edge. -/
def closedCrossings (p : PolygonArea) : ℤ :=
  p.crossings + transit (p.lon1.getD 0) (p.lon0.getD 0)

/-- The signed area (after the `reverse` adjustment) that `Compute`
reports when `sign` is true. -/
def computeSignedArea (p : PolygonArea) (reverse : Bool) : ℚ :=
  signedAreaOf p.area0 (closedAreaSum p) (closedCrossings p) reverse

/-- Modelled from the spec: `PolygonAreaT::Compute` (its body is not
under `src/`): read-only; fewer than two vertices give perimeter 0 and
area 0; a polyline reports the open-path length only; a polygon closes
the loop virtually (on local copies) and reduces the area sum using the
total crossing count and the `reverse`/`sign` rules.  Returns
(vertex count, perimeter, area). -/
def Compute (p : PolygonArea) (reverse sign : Bool) : ℕ × ℚ × ℚ :=
  if p.num < 2 then (p.num, 0, 0)
  else if p.polyline then (p.num, p.perimetersum.value, 0)
  else
    (p.num, closedPerimeter p,
      finishArea p.area0 (closedAreaSum p) (closedCrossings p) reverse sign)

/-- Modelled from the spec: `PolygonAreaT::TestPoint` (its body is not
under `src/`): the result of `Compute` had the given point been added,
folding the tentative contributions into local plain-arithmetic copies;
the persistent state is untouched.  Returns (vertex count, perimeter,
area). -/
def TestPoint (p : PolygonArea) (lat lon : ℚ) (reverse sign : Bool) :
    ℕ × ℚ × ℚ :=
  if p.num = 0 then (1, 0, 0)
  else
    let lonn := AngNormalize lon
    let r := p.engine.inverse (p.lat1.getD 0) (p.lon1.getD 0) lat lonn
    let perim := p.perimetersum.value + r.1
    if p.polyline then (p.num + 1, perim, 0)
    else
      let c := p.engine.inverse lat lonn (p.lat0.getD 0) (p.lon0.getD 0)
      let tempsum := p.areasum.value + r.2 + c.2
      let cr := p.crossings + transit (p.lon1.getD 0) lonn
        + transit lonn (p.lon0.getD 0)
      (p.num + 1, perim + c.1, finishArea p.area0 tempsum cr reverse sign)

/-- Modelled from the spec: `PolygonAreaT::TestEdge` (its body is not
under `src/`): the result of `Compute` had an edge of the given azimuth
and distance been added, folding the tentative contributions into local
plain-arithmetic copies; the persistent state is untouched. -/
def TestEdge (p : PolygonArea) (azi s : ℚ) (reverse sign : Bool) :
    ℕ × ℚ × ℚ :=
  if p.num = 0 then (0, 0, 0)
  else
    let r := p.engine.direct (p.lat1.getD 0) (p.lon1.getD 0) azi s
    let perim := p.perimetersum.value + s
    if p.polyline then (p.num + 1, perim, 0)
    else
      let c := p.engine.inverse r.1 r.2.1 (p.lat0.getD 0) (p.lon0.getD 0)
      let tempsum := p.areasum.value + r.2.2 + c.2
      let cr := p.crossings + transit (p.lon1.getD 0) r.2.1
        + transit r.2.1 (p.lon0.getD 0)
      (p.num + 1, perim + c.1, finishArea p.area0 tempsum cr reverse sign)

/-- From the source (`PolygonArea.hpp`, `PolygonAreaT::TestCompute`):
the deprecated old name for `TestPoint`; it forwards all arguments to
`TestPoint` unchanged. -/
def TestCompute (p : PolygonArea) (lat lon : ℚ) (reverse sign : Bool) :
    ℕ × ℚ × ℚ :=
  TestPoint p lat lon reverse sign

/-- From the source (`PolygonArea.hpp`, `PolygonAreaT::CurrentPoint`):
report the previous vertex added (NaN, modelled as `none`, if no points
have been added). -/
def CurrentPoint (p : PolygonArea) : Option ℚ × Option ℚ :=
  (p.lat1, p.lon1)

/-- A call made to a `PolygonAreaT` instance, used to state frame
properties over call sequences. -/
inductive Op where
  | addPoint (lat lon : ℚ)
  | addEdge (azi s : ℚ)
  | testPoint (lat lon : ℚ) (reverse sign : Bool)
  | testEdge (azi s : ℚ) (reverse sign : Bool)
  | clear
deriving DecidableEq

/-- Whether a call is one of the read-only preview calls. -/
def Op.isTest : Op → Bool
  | .testPoint _ _ _ _ => true
  | .testEdge _ _ _ _ => true
  | _ => false

/-- The state after one call.  `TestPoint`/`TestEdge` compute their
result from a disposable copy of the state (spec §4.2 of the
`Accumulator` contract and §4.3), so they leave the persistent state
unchanged; their return values are given by `TestPoint`/`TestEdge`. -/
def step (p : PolygonArea) : Op → PolygonArea
  | .addPoint lat lon => AddPoint p lat lon
  | .addEdge azi s => AddEdge p azi s
  | .testPoint _ _ _ _ => p
  | .testEdge _ _ _ _ => p
  | .clear => Clear p

/-- The state after a sequence of calls. -/
def runOps (p : PolygonArea) (ops : List Op) : PolygonArea :=
  ops.foldl step p

/-- A concrete engine used for the closed witness statements. -/
def engineW : GeodEngine where
  area0 := 100
  majorRadius := 2
  flattening := 0
  inverse := fun _ _ _ _ => (3, 5)
  direct := fun _ _ _ s => (1, 2, s)

/-- A concrete empty instance used for the closed witness statements. -/
def polyW0 : PolygonArea := mkPolygonArea engineW false

/-- A concrete two-vertex polygon state used for the closed witness
statements. -/
def polyW2 : PolygonArea where
  engine := engineW
  area0 := 100
  polyline := false
  num := 2
  crossings := 0
  areasum := ⟨5, 0⟩
  perimetersum := ⟨3, 0⟩
  lat0 := some 0
  lon0 := some 0
  lat1 := some 1
  lon1 := some 10

/-- A concrete list of preview calls used for the closed witness
statements. -/
def opsW : List Op :=
  [Op.testPoint 1 2 false false, Op.testEdge 3 4 true true,
   Op.testPoint 5 6 true false]

/-! ## Supporting lemmas -/

theorem wrap_bounds (d : ℚ) : -180 < wrap d ∧ wrap d ≤ 180 := by
  unfold wrap
  have h1 : d / 360 - 1/2 ≤ ((⌈d / 360 - 1/2⌉ : ℤ) : ℚ) := Int.le_ceil _
  have h2 : ((⌈d / 360 - 1/2⌉ : ℤ) : ℚ) < d / 360 - 1/2 + 1 :=
    Int.ceil_lt_add_one _
  constructor <;> linarith

theorem wrap_eq_of (d e : ℚ) (h1 : -180 < e) (h2 : e ≤ 180) (k : ℤ)
    (hk : d - e = 360 * k) : wrap d = e := by
  obtain ⟨hl, hr⟩ := wrap_bounds d
  have hK : d - wrap d = 360 * ((⌈d / 360 - 1/2⌉ : ℤ) : ℚ) := by
    unfold wrap; ring
  set K : ℤ := ⌈d / 360 - 1/2⌉ with hKdef
  have j1 : (-1 : ℤ) < k - K := by
    have : ((-1 : ℤ) : ℚ) < ((k - K : ℤ) : ℚ) := by push_cast; linarith
    exact_mod_cast this
  have j2 : k - K < 1 := by
    have : ((k - K : ℤ) : ℚ) < ((1 : ℤ) : ℚ) := by push_cast; linarith
    exact_mod_cast this
  have hkK : k = K := by omega
  have : ((k : ℤ) : ℚ) = ((K : ℤ) : ℚ) := by exact_mod_cast hkK
  linarith

theorem wrap_neg (d : ℚ) (h : wrap d ≠ 180) : wrap (-d) = - wrap d := by
  obtain ⟨hl, hr⟩ := wrap_bounds d
  have hr' : wrap d < 180 := lt_of_le_of_ne hr h
  have hK : d - wrap d = 360 * ((⌈d / 360 - 1/2⌉ : ℤ) : ℚ) := by
    unfold wrap; ring
  exact wrap_eq_of _ _ (by linarith) (by linarith) (-⌈d / 360 - 1/2⌉)
    (by push_cast; linarith)

theorem angNormalize_bounds (x : ℚ) :
    -180 ≤ AngNormalize x ∧ AngNormalize x < 180 := by
  unfold AngNormalize
  have h1 : ((⌊(x + 180) / 360⌋ : ℤ) : ℚ) ≤ (x + 180) / 360 := Int.floor_le _
  have h2 : (x + 180) / 360 < ((⌊(x + 180) / 360⌋ : ℤ) : ℚ) + 1 :=
    Int.lt_floor_add_one _
  constructor <;> linarith

theorem angNormalize_eq_of (x e : ℚ) (h1 : -180 ≤ e) (h2 : e < 180) (k : ℤ)
    (hk : x - e = 360 * k) : AngNormalize x = e := by
  obtain ⟨hl, hr⟩ := angNormalize_bounds x
  have hK : x - AngNormalize x = 360 * ((⌊(x + 180) / 360⌋ : ℤ) : ℚ) := by
    unfold AngNormalize; ring
  set K : ℤ := ⌊(x + 180) / 360⌋ with hKdef
  have j1 : (-1 : ℤ) < k - K := by
    have : ((-1 : ℤ) : ℚ) < ((k - K : ℤ) : ℚ) := by push_cast; linarith
    exact_mod_cast this
  have j2 : k - K < 1 := by
    have : ((k - K : ℤ) : ℚ) < ((1 : ℤ) : ℚ) := by push_cast; linarith
    exact_mod_cast this
  have hkK : k = K := by omega
  have : ((k : ℤ) : ℚ) = ((K : ℤ) : ℚ) := by exact_mod_cast hkK
  linarith

theorem angNormalize_idem (x : ℚ) :
    AngNormalize (AngNormalize x) = AngNormalize x :=
  angNormalize_eq_of _ _ (angNormalize_bounds x).1 (angNormalize_bounds x).2 0
    (by push_cast; ring)

theorem angDiff_self (x : ℚ) : AngDiff x x = 0 := by
  show wrap (x - x) = 0
  rw [sub_self]
  exact wrap_eq_of _ _ (by norm_num) (by norm_num) 0 (by push_cast; norm_num)

theorem angDiff_norm (x y : ℚ) :
    AngDiff (AngNormalize x) (AngNormalize y) = AngDiff x y := by
  show wrap (AngNormalize y - AngNormalize x) = AngDiff x y
  obtain ⟨hl, hr⟩ := wrap_bounds (y - x)
  refine wrap_eq_of _ _ hl hr
    (⌊(x + 180) / 360⌋ - ⌊(y + 180) / 360⌋ + ⌈(y - x) / 360 - 1/2⌉) ?_
  show AngNormalize y - AngNormalize x - wrap (y - x) = _
  unfold AngNormalize wrap
  push_cast
  ring

theorem angDiff_swap (x y : ℚ) (h : AngDiff x y ≠ 180) :
    AngDiff y x = - AngDiff x y := by
  show wrap (x - y) = - AngDiff x y
  rw [show x - y = -(y - x) by ring]
  exact wrap_neg (y - x) h

theorem transit_eq (lon1 lon2 : ℚ) :
    transit lon1 lon2 =
      (if AngNormalize lon1 < 0 ∧ 0 ≤ AngNormalize lon2
          ∧ 0 < AngDiff (AngNormalize lon1) (AngNormalize lon2) then 1
       else if AngNormalize lon2 < 0 ∧ 0 ≤ AngNormalize lon1
          ∧ AngDiff (AngNormalize lon1) (AngNormalize lon2) < 0 then -1
       else 0) := rfl

theorem transit_eval_179 : transit (179 : ℚ) (-179) = 0 := by
  have n1 : AngNormalize (179 : ℚ) = 179 :=
    angNormalize_eq_of _ _ (by norm_num) (by norm_num) 0 (by push_cast; norm_num)
  have n2 : AngNormalize (-179 : ℚ) = -179 :=
    angNormalize_eq_of _ _ (by norm_num) (by norm_num) 0 (by push_cast; norm_num)
  have d : AngDiff (179 : ℚ) (-179) = 2 := by
    show wrap (-179 - 179) = 2
    norm_num
    exact wrap_eq_of _ _ (by norm_num) (by norm_num) (-1) (by push_cast; norm_num)
  rw [transit_eq, n1, n2, d]
  norm_num

theorem transit_eval_m179 : transit (-179 : ℚ) 179 = 0 := by
  have n1 : AngNormalize (-179 : ℚ) = -179 :=
    angNormalize_eq_of _ _ (by norm_num) (by norm_num) 0 (by push_cast; norm_num)
  have n2 : AngNormalize (179 : ℚ) = 179 :=
    angNormalize_eq_of _ _ (by norm_num) (by norm_num) 0 (by push_cast; norm_num)
  have d : AngDiff (-179 : ℚ) 179 = -2 := by
    show wrap (179 - -179) = -2
    norm_num
    exact wrap_eq_of _ _ (by norm_num) (by norm_num) 1 (by push_cast; norm_num)
  rw [transit_eq, n1, n2, d]
  norm_num

theorem transit_eval_10_20 : transit (10 : ℚ) 20 = 0 := by
  have n1 : AngNormalize (10 : ℚ) = 10 :=
    angNormalize_eq_of _ _ (by norm_num) (by norm_num) 0 (by push_cast; norm_num)
  have n2 : AngNormalize (20 : ℚ) = 20 :=
    angNormalize_eq_of _ _ (by norm_num) (by norm_num) 0 (by push_cast; norm_num)
  have d : AngDiff (10 : ℚ) 20 = 10 := by
    show wrap (20 - 10) = 10
    norm_num
    exact wrap_eq_of _ _ (by norm_num) (by norm_num) 0 (by push_cast; norm_num)
  rw [transit_eq, n1, n2, d]
  norm_num

theorem transit_eval_m10_10 : transit (-10 : ℚ) 10 = 1 := by
  have n1 : AngNormalize (-10 : ℚ) = -10 :=
    angNormalize_eq_of _ _ (by norm_num) (by norm_num) 0 (by push_cast; norm_num)
  have n2 : AngNormalize (10 : ℚ) = 10 :=
    angNormalize_eq_of _ _ (by norm_num) (by norm_num) 0 (by push_cast; norm_num)
  have d : AngDiff (-10 : ℚ) 10 = 20 := by
    show wrap (10 - -10) = 20
    norm_num
    exact wrap_eq_of _ _ (by norm_num) (by norm_num) 0 (by push_cast; norm_num)
  rw [transit_eq, n1, n2, d]
  norm_num

theorem transit_ite_antisym (a b d : ℚ) :
    (if b < 0 ∧ 0 ≤ a ∧ 0 < -d then (1 : ℤ)
     else if a < 0 ∧ 0 ≤ b ∧ -d < 0 then -1 else 0)
      = -(if a < 0 ∧ 0 ≤ b ∧ 0 < d then (1 : ℤ)
          else if b < 0 ∧ 0 ≤ a ∧ d < 0 then -1 else 0) := by
  rcases lt_trichotomy d 0 with hd | hd | hd
  · by_cases hba : b < 0 ∧ 0 ≤ a
    · rw [if_pos ⟨hba.1, hba.2, by linarith⟩,
        if_neg (fun h => absurd h.2.2 (not_lt.mpr hd.le)),
        if_pos ⟨hba.1, hba.2, hd⟩]
      norm_num
    · rw [if_neg (fun h => hba ⟨h.1, h.2.1⟩),
        if_neg (fun h => absurd (show (0 : ℚ) < d by linarith [h.2.2])
          (not_lt.mpr hd.le)),
        if_neg (fun h => absurd h.2.2 (not_lt.mpr hd.le)),
        if_neg (fun h => hba ⟨h.1, h.2.1⟩)]
      norm_num
  · subst hd
    norm_num
  · by_cases hab : a < 0 ∧ 0 ≤ b
    · rw [if_neg (fun h => absurd (show d < 0 by linarith [h.2.2])
          (not_lt.mpr hd.le)),
        if_pos ⟨hab.1, hab.2, by linarith⟩, if_pos ⟨hab.1, hab.2, hd⟩]
    · rw [if_neg (fun h => absurd (show d < 0 by linarith [h.2.2])
          (not_lt.mpr hd.le)),
        if_neg (fun h => hab ⟨h.1, h.2.1⟩),
        if_neg (fun h => hab ⟨h.1, h.2.1⟩),
        if_neg (fun h => absurd h.2.2 (not_lt.mpr hd.le))]
      norm_num

/-! ## Claim theorems -/

/-- C1 (counterexample): the spec's concrete value `Transit(179, -179)
= +1` is false on the code: `transit` detects prime-meridian crossings,
not antimeridian crossings, and returns 0 here. -/
theorem transit_claim_values_false : ¬ transit (179 : ℚ) (-179) = 1 := by
  rw [transit_eval_179]
  norm_num

/-- C1 (amended): the meridian-crossing detector returns these concrete
values: `transit 179 (-179) = 0`, `transit (-179) 179 = 0`,
`transit 10 20 = 0`, and `transit (-10) 10 = +1` — it detects crossings
of the prime meridian (per the code's own comment), not of the
antimeridian. -/
theorem transit_concrete_values :
    transit (179 : ℚ) (-179) = 0 ∧ transit (-179 : ℚ) 179 = 0 ∧
      transit (10 : ℚ) 20 = 0 ∧ transit (-10 : ℚ) 10 = 1 :=
  ⟨transit_eval_179, transit_eval_m179, transit_eval_10_20, transit_eval_m10_10⟩

/-- C2: for every pair of longitudes, `transit` agrees with the spec's
rule: after normalizing both longitudes to [-180, 180) and computing
`lon12 = AngDiff(lon1, lon2)` in (-180, 180], the result is +1 if
`lon1 < 0 ≤ lon2` and `lon12 > 0`, -1 if `lon2 < 0 ≤ lon1` and
`lon12 < 0`, else 0. -/
theorem transit_matches_spec (lon1 lon2 : ℚ) :
    transit lon1 lon2 = transitSpec lon1 lon2 := by
  rw [transit_eq, angDiff_norm]
  rfl

/-- C9: the detector is antisymmetric, `transit lon2 lon1 =
-(transit lon1 lon2)`, whenever the shortest angular difference is not
exactly 180 degrees; at exactly 180 degrees the antisymmetry can fail,
as witnessed by `transit (-90) 90 = 1` while `transit 90 (-90) = 0`. -/
theorem transit_antisym (lon1 lon2 : ℚ) (h : AngDiff lon1 lon2 ≠ 180) :
    transit lon2 lon1 = - transit lon1 lon2 ∧
      transit (-90 : ℚ) 90 = 1 ∧ transit (90 : ℚ) (-90) = 0 := by
  refine ⟨?_, ?_, ?_⟩
  · have hn : AngDiff (AngNormalize lon1) (AngNormalize lon2)
        = AngDiff lon1 lon2 := angDiff_norm _ _
    have hne : AngDiff (AngNormalize lon1) (AngNormalize lon2) ≠ 180 := by
      rw [hn]; exact h
    have hs : AngDiff (AngNormalize lon2) (AngNormalize lon1)
        = - AngDiff (AngNormalize lon1) (AngNormalize lon2) :=
      angDiff_swap _ _ hne
    rw [transit_eq lon2 lon1, transit_eq lon1 lon2, hs]
    exact transit_ite_antisym (AngNormalize lon1) (AngNormalize lon2)
      (AngDiff (AngNormalize lon1) (AngNormalize lon2))
  · have n1 : AngNormalize (-90 : ℚ) = -90 :=
      angNormalize_eq_of _ _ (by norm_num) (by norm_num) 0 (by push_cast; norm_num)
    have n2 : AngNormalize (90 : ℚ) = 90 :=
      angNormalize_eq_of _ _ (by norm_num) (by norm_num) 0 (by push_cast; norm_num)
    have d : AngDiff (-90 : ℚ) 90 = 180 := by
      show wrap (90 - -90) = 180
      norm_num
      exact wrap_eq_of _ _ (by norm_num) (by norm_num) 0 (by push_cast; norm_num)
    rw [transit_eq, n1, n2, d]
    norm_num
  · have n1 : AngNormalize (90 : ℚ) = 90 :=
      angNormalize_eq_of _ _ (by norm_num) (by norm_num) 0 (by push_cast; norm_num)
    have n2 : AngNormalize (-90 : ℚ) = -90 :=
      angNormalize_eq_of _ _ (by norm_num) (by norm_num) 0 (by push_cast; norm_num)
    have d : AngDiff (90 : ℚ) (-90) = 180 := by
      show wrap (-90 - 90) = 180
      norm_num
      exact wrap_eq_of _ _ (by norm_num) (by norm_num) (-1) (by push_cast; norm_num)
    rw [transit_eq, n1, n2, d]
    norm_num

/-- C9 witness: a concrete instantiation with `AngDiff 10 20 = 10 ≠ 180`. -/
theorem transit_antisym_witness :
    AngDiff (10 : ℚ) 20 ≠ 180 ∧ transit (20 : ℚ) 10 = - transit (10 : ℚ) 20 := by
  have hd : AngDiff (10 : ℚ) 20 = 10 := by
    show wrap (20 - 10) = 10
    norm_num
    exact wrap_eq_of _ _ (by norm_num) (by norm_num) 0 (by push_cast; norm_num)
  constructor
  · rw [hd]; norm_num
  · exact (transit_antisym 10 20 (by rw [hd]; norm_num)).1

theorem transit_norm_self (lon : ℚ) : transit lon (AngNormalize lon) = 0 := by
  rw [transit_eq, angNormalize_idem, angDiff_self]
  norm_num

/-- C10: `transit lon lon = 0` for every longitude, and consequently
adding a point whose longitude coincides with the current vertex's
longitude leaves the crossing count unchanged. -/
theorem transit_self_zero (lon : ℚ) :
    transit lon lon = 0 ∧
      ∀ (p : PolygonArea) (lat : ℚ), p.num ≠ 0 → p.lon1 = some lon →
        (AddPoint p lat lon).crossings = p.crossings := by
  constructor
  · rw [transit_eq, angDiff_self]
    norm_num
  · intro p lat hnum hlon
    simp only [AddPoint, if_neg hnum, hlon, Option.getD_some, transit_norm_self,
      add_zero]
    cases hp : p.polyline <;> simp

/-- C10 witness: a concrete two-vertex state whose current longitude is
10. -/
theorem transit_self_zero_witness :
    transit (10 : ℚ) 10 = 0 ∧
      (AddPoint polyW2 1 10).crossings = polyW2.crossings :=
  ⟨(transit_self_zero 10).1,
    (transit_self_zero 10).2 polyW2 1 (by decide) rfl⟩

/-- C7: `Clear` resets the vertex count and the crossing count to 0,
both accumulators to 0, and all four cursor fields to NaN (modelled by
`none`); being a total function it raises no error. -/
theorem clear_resets (p : PolygonArea) :
    (Clear p).num = 0 ∧ (Clear p).crossings = 0 ∧
      (Clear p).areasum = Accumulator.ofScalar 0 ∧
      (Clear p).perimetersum = Accumulator.ofScalar 0 ∧
      (Clear p).areasum.value = 0 ∧ (Clear p).perimetersum.value = 0 ∧
      (Clear p).lat0 = none ∧ (Clear p).lon0 = none ∧
      (Clear p).lat1 = none ∧ (Clear p).lon1 = none := by
  refine ⟨rfl, rfl, rfl, rfl, ?_, ?_, rfl, rfl, rfl, rfl⟩ <;>
    simp [Clear, Accumulator.ofScalar, Accumulator.value]

/-- C8: the deprecated `TestCompute` returns exactly the same value as
`TestPoint` at every state and argument list — the source defines it as
a direct forward to `TestPoint`. -/
theorem testCompute_eq_testPoint (p : PolygonArea) (lat lon : ℚ)
    (reverse sign : Bool) :
    TestCompute p lat lon reverse sign = TestPoint p lat lon reverse sign := rfl

/-- C5: `AddEdge` on an instance with no vertices is a silent no-op:
the whole state is returned unchanged, and as a total function it
raises no error. -/
theorem addEdge_empty_noop (p : PolygonArea) (azi s : ℚ) (h : p.num = 0) :
    AddEdge p azi s = p := by
  unfold AddEdge
  rw [if_pos h]

/-- C5 witness: the freshly constructed instance has no vertices, and
`AddEdge` leaves it unchanged. -/
theorem addEdge_empty_noop_witness :
    polyW0.num = 0 ∧ AddEdge polyW0 45 1000 = polyW0 :=
  ⟨rfl, addEdge_empty_noop polyW0 45 1000 rfl⟩

/-- C6: with fewer than 2 vertices `Compute` returns the stored vertex
count with perimeter 0 and area 0; in particular after `Clear` it
returns (0, 0, 0) and after a single `AddPoint` it returns (1, 0, 0). -/
theorem compute_degenerate (p : PolygonArea) (lat lon : ℚ) (r s : Bool)
    (h : p.num < 2) :
    Compute p r s = (p.num, 0, 0) ∧
      Compute (Clear p) r s = (0, 0, 0) ∧
      Compute (AddPoint (Clear p) lat lon) r s = (1, 0, 0) := by
  refine ⟨?_, ?_, ?_⟩
  · unfold Compute
    rw [if_pos h]
  · simp [Compute, Clear]
  · have h1 : (AddPoint (Clear p) lat lon).num = 1 := by
      simp [AddPoint, Clear]
    unfold Compute
    rw [if_pos (show (AddPoint (Clear p) lat lon).num < 2 by
      rw [h1]; norm_num), h1]

/-- C6 witness: the freshly constructed instance has 0 < 2 vertices. -/
theorem compute_degenerate_witness :
    polyW0.num < 2 ∧ Compute polyW0 false true = (polyW0.num, 0, 0) :=
  ⟨by decide, (compute_degenerate polyW0 1 2 false true (by decide)).1⟩

theorem reduceSigned_bounds (a0 s : ℚ) (h0 : 0 < a0) :
    -(a0/2) < reduceSigned a0 s ∧ reduceSigned a0 s ≤ a0/2 := by
  unfold reduceSigned
  have h1 : s / a0 - 1/2 ≤ ((⌈s / a0 - 1/2⌉ : ℤ) : ℚ) := Int.le_ceil _
  have h2 : ((⌈s / a0 - 1/2⌉ : ℤ) : ℚ) < s / a0 - 1/2 + 1 :=
    Int.ceil_lt_add_one _
  have hs : s / a0 * a0 = s := div_mul_cancel₀ s (ne_of_gt h0)
  constructor
  · have hm : ((⌈s / a0 - 1/2⌉ : ℤ) : ℚ) * a0 < (s / a0 - 1/2 + 1) * a0 :=
      mul_lt_mul_of_pos_right h2 h0
    have he : (s / a0 - 1/2 + 1) * a0 = s + a0/2 := by
      rw [add_mul, sub_mul, hs]; ring
    rw [he] at hm
    linarith
  · have hm : (s / a0 - 1/2) * a0 ≤ ((⌈s / a0 - 1/2⌉ : ℤ) : ℚ) * a0 :=
      mul_le_mul_of_nonneg_right h1 h0.le
    have he : (s / a0 - 1/2) * a0 = s - a0/2 := by
      rw [sub_mul, hs]; ring
    rw [he] at hm
    linarith

theorem signedArea_abs_le (a0 s : ℚ) (cr : ℤ) (rev : Bool) (h0 : 0 < a0) :
    |signedAreaOf a0 s cr rev| ≤ a0/2 := by
  unfold signedAreaOf
  obtain ⟨hl, hr⟩ := reduceSigned_bounds a0 (adjustCrossings a0 s cr) h0
  have h : |reduceSigned a0 (adjustCrossings a0 s cr)| ≤ a0/2 :=
    abs_le.mpr ⟨by linarith, hr⟩
  cases rev
  · simpa using h
  · simpa [abs_neg] using h

/-- C4: in polygon mode with `sign = false` and at least two vertices,
the area reported by `Compute` is non-negative; when the signed area
(after the `reverse` adjustment) is negative, `Compute` reports the
complement `fullSurfaceArea - |signed area|` instead. -/
theorem compute_unsigned_area_nonneg (p : PolygonArea) (reverse : Bool)
    (hn : 2 ≤ p.num) (hp : p.polyline = false) (h0 : 0 < p.area0) :
    0 ≤ (Compute p reverse false).2.2 ∧
      (computeSignedArea p reverse < 0 →
        (Compute p reverse false).2.2
          = p.area0 - |computeSignedArea p reverse|) := by
  have hlt : ¬ p.num < 2 := not_lt.mpr hn
  have hc : (Compute p reverse false).2.2
      = finishArea p.area0 (closedAreaSum p) (closedCrossings p) reverse false := by
    unfold Compute
    rw [if_neg hlt, hp]
    simp
  have hfin : finishArea p.area0 (closedAreaSum p) (closedCrossings p) reverse false
      = if computeSignedArea p reverse < 0
        then p.area0 - |computeSignedArea p reverse|
        else computeSignedArea p reverse := by
    unfold finishArea computeSignedArea
    simp
  have habs : |computeSignedArea p reverse| ≤ p.area0/2 :=
    signedArea_abs_le _ _ _ _ h0
  rw [hc, hfin]
  constructor
  · split_ifs with hneg
    · have := abs_le.mp habs
      linarith
    · exact not_lt.mp hneg
  · intro hneg
    rw [if_pos hneg]

/-- C4 witness: a concrete two-vertex polygon state with a positive
full ellipsoid area. -/
theorem compute_unsigned_area_nonneg_witness :
    (2 ≤ polyW2.num ∧ polyW2.polyline = false ∧ 0 < polyW2.area0) ∧
      0 ≤ (Compute polyW2 false false).2.2 :=
  ⟨⟨by decide, rfl, by decide⟩,
    (compute_unsigned_area_nonneg polyW2 false (by decide) rfl (by decide)).1⟩

theorem runOps_test_id (p : PolygonArea) (ops : List Op)
    (h : ∀ o ∈ ops, o.isTest = true) : runOps p ops = p := by
  induction ops with
  | nil => rfl
  | cons o ops ih =>
    have ho : o.isTest = true := h o (List.mem_cons_self o ops)
    have hstep : step p o = p := by
      cases o with
      | testPoint a b c d => rfl
      | testEdge a b c d => rfl
      | addPoint a b => simp [Op.isTest] at ho
      | addEdge a b => simp [Op.isTest] at ho
      | clear => simp [Op.isTest] at ho
    show List.foldl step p (o :: ops) = p
    rw [List.foldl_cons, hstep]
    exact ih (fun o' ho' => h o' (List.mem_cons_of_mem _ ho'))

/-- C3: any sequence of `TestPoint`/`TestEdge` preview calls leaves the
persistent state unchanged, so a subsequent `Compute` returns exactly
what it would have returned without them, and repeated preview calls
with the same tentative input return the same result. -/
theorem test_preview_frame (p : PolygonArea) (ops : List Op)
    (h : ∀ o ∈ ops, o.isTest = true) :
    runOps p ops = p ∧
      (∀ r s, Compute (runOps p ops) r s = Compute p r s) ∧
      (∀ lat lon r s,
        TestPoint (runOps p ops) lat lon r s = TestPoint p lat lon r s) ∧
      (∀ azi d r s,
        TestEdge (runOps p ops) azi d r s = TestEdge p azi d r s) := by
  have hid := runOps_test_id p ops h
  exact ⟨hid, fun r s => by rw [hid], fun lat lon r s => by rw [hid],
    fun azi d r s => by rw [hid]⟩

/-- C3 witness: three concrete preview calls on a concrete two-vertex
state. -/
theorem test_preview_frame_witness :
    opsW.all Op.isTest = true ∧
      runOps polyW2 opsW = polyW2 ∧
      Compute (runOps polyW2 opsW) false true = Compute polyW2 false true :=
  ⟨by decide, (test_preview_frame polyW2 opsW (by decide)).1,
    (test_preview_frame polyW2 opsW (by decide)).2.1 false true⟩

end GeographicLib
